import Mathlib

/-!
Shallow embedding of the pISO orchestrator (`src/pISO/src/piso.rs`).

The repository visible here contains only `piso.rs`; the modules it uses
(`vdrive`, `lvm`, `utils`, `controller`, `version`, ...) are external to the
provided sources.  The orchestrator-level functions (`do_action`, `on_event`,
`share_drive`, `add_drive`, `build_drives_from_vg`, `mut_children`,
`children`) are translated directly from `piso.rs`; the data types and
operations of the missing collaborator modules are modelled from the
specification and marked as such in their doc comments.
-/

namespace Piso

/-- A logical volume of the volume store (`lvm::LogicalVolume`).
Modelled from the spec: a volume is identified by a unique name and carries
partitions (one local mount path per partition when mounted internally). -/
structure LogicalVolume where
  name : String
  parts : List String
deriving DecidableEq, Repr

/-- The volume store (`lvm::VolumeGroup`).  Modelled from the spec: holds the
volumes by name; `busy` records the names the underlying volume manager
currently considers in use, for which a delete request fails. -/
structure VolumeGroup where
  volumes : List LogicalVolume
  busy : List String
deriving DecidableEq, Repr

/-- Modelled from the spec (`lvm::VolumeGroup::delete_volume` is not in the
provided sources): deleting a volume fails with a storage error if the
manager considers it in use or it does not exist; otherwise it is removed. -/
def VolumeGroup.delete_volume (vg : VolumeGroup) (nm : String) :
    Except String VolumeGroup :=
  if vg.busy.contains nm then
    Except.error "Logical volume in use"
  else if vg.volumes.any (fun v => v.name == nm) then
    Except.ok { vg with volumes := vg.volumes.filter (fun v => v.name != nm) }
  else
    Except.error "Logical volume not found"

/-- Modelled from the spec (`lvm::VolumeGroup::snapshot_volume` is not in the
provided sources): produces a new volume as a copy-on-write snapshot of the
named one, failing if the origin does not exist. -/
def VolumeGroup.snapshot_volume (vg : VolumeGroup) (nm : String) :
    Except String (LogicalVolume × VolumeGroup) :=
  match vg.volumes.find? (fun v => v.name == nm) with
  | none => Except.error "Logical volume not found"
  | some base =>
    let snap : LogicalVolume := { name := nm ++ "-snap", parts := base.parts }
    Except.ok (snap, { vg with volumes := vg.volumes ++ [snap] })

/-- Payload of the `Internal` mount state (`vdrive::MountState::Internal`):
the ordered local mount paths, one per partition. -/
structure InternalInfo where
  part_mount_paths : List String
deriving DecidableEq, Repr

/-- Payload of the `External` mount state: identifies the LUN slot. -/
structure ExternalInfo where
  lun : Nat
deriving DecidableEq, Repr

/-- The per-drive mount state (`vdrive::MountState`): exactly one of
unmounted, mounted locally, or exposed to the USB host. -/
inductive MountState where
  | Unmounted : MountState
  | Internal : InternalInfo → MountState
  | External : ExternalInfo → MountState
deriving DecidableEq, Repr

/-- Whether a mount state is the locally-mounted (`Internal`) one. -/
def MountState.is_internal : MountState → Bool
  | .Internal _ => true
  | _ => false

/-- A virtual drive (`vdrive::VirtualDrive`): one volume coupled with its
mount state. -/
structure VirtualDrive where
  volume : LogicalVolume
  state : MountState
deriving DecidableEq, Repr

/-- Modelled from the spec (`vdrive::VirtualDrive::name` is not in the
provided sources): a drive's name is derived from its volume's name; the
display transliteration does not affect the underlying identity. -/
def VirtualDrive.name (d : VirtualDrive) : String := d.volume.name

/-- Modelled from the spec: the deterministic local mount paths of a volume,
one per partition (scenario in the spec: volume `backup` with partition
`part1` mounts at `/mnt/backup/part1`). -/
def mount_paths (volume : LogicalVolume) : List String :=
  volume.parts.map (fun part => "/mnt/" ++ volume.name ++ "/" ++ part)

/-- Modelled from the spec (`vdrive::VirtualDrive::new` is not in the
provided sources): a freshly constructed drive's default initial state is
`Internal`, its partitions mounted at the deterministic local paths. -/
def VirtualDrive.new (volume : LogicalVolume) : VirtualDrive :=
  { volume := volume
    state := MountState.Internal { part_mount_paths := mount_paths volume } }

/-- Modelled from the spec (`vdrive::VirtualDrive::mount_internal` is not in
the provided sources): valid from `Unmounted`, transitioning to `Internal`
with the deterministic mount paths.  On an already-`Internal` drive there is
nothing to mount, so it is a no-op; from `External` local mounting is
impossible (the raw device is handed to the host). -/
def VirtualDrive.mount_internal (d : VirtualDrive) : Except String VirtualDrive :=
  match d.state with
  | .Unmounted =>
    Except.ok { d with state := MountState.Internal { part_mount_paths := mount_paths d.volume } }
  | .Internal _ => Except.ok d
  | .External _ => Except.error "Cannot mount internal while exposed external"

/-- Environment of a teardown call: whether the external unmount or
un-expose operation (a blocking call into the mount or gadget subsystem)
fails.  Modelled from the spec's error-handling design: an external call
either succeeds or surfaces an error leaving the pre-transition state. -/
structure Env where
  unmount_fails : Bool
deriving DecidableEq, Repr

/-- Modelled from the spec (`vdrive::VirtualDrive::unmount` is not in the
provided sources): forces the drive to `Unmounted` — unmounting from
`Internal`, or un-exposing then unmounting from `External`.  Already
unmounted drives need no external call; otherwise the external call may
fail, leaving the drive in its pre-transition state. -/
def VirtualDrive.unmount (d : VirtualDrive) (env : Env) : Except String VirtualDrive :=
  match d.state with
  | .Unmounted => Except.ok d
  | _ =>
    if env.unmount_fails then Except.error "unmount failed"
    else Except.ok { d with state := MountState.Unmounted }

/-- The action variants of `action::Action` that `piso.rs` consumes or
emits; `Other` stands for the remaining variants, which the orchestrator's
`do_action` leaves to its catch-all branch. -/
inductive Action where
  | FlipDisplay : Action
  | CreateDrive : LogicalVolume → Action
  | SnapshotDrive : String → Action
  | DeleteDrive : String → Action
  | SmbSharePartition : String → Action
  | SmbRemoveShare : String → Action
  | Other : Action
deriving DecidableEq, Repr

/-- Raw input events (`controller::Event`).  Modelled from the spec:
navigation, selection, back.  `PIso::on_event` matches all of them with a
catch-all. -/
inductive Event where
  | Up : Event
  | Down : Event
  | Select : Event
  | Back : Event
deriving DecidableEq, Repr

/-- The capability flag (`version::PiVersion`): whether the optional
wireless hardware is present. -/
structure PiVersion where
  wifi : Bool
deriving DecidableEq, Repr

/-- `version::PiVersion::has_wifi`. -/
def PiVersion.has_wifi (v : PiVersion) : Bool := v.wifi

/-- UI configuration (`config::Config` `ui` section): the drive-sort flag
read by `mut_children`/`children`, and the display transliteration table
used by `utils::translate_drive_name` (modelled from the spec as a
name-to-display-name map). -/
structure UiConfig where
  sort_drives : Option Bool
  rename : List (String × String)
deriving DecidableEq, Repr

/-- Configuration (`config::Config`), restricted to what `piso.rs` reads. -/
structure Config where
  ui : UiConfig
deriving DecidableEq, Repr

/-- Modelled from the spec (`utils::translate_drive_name` is not in the
provided sources): the externally visible drive name is the volume's name
with an optional, configurable display-level transliteration applied. -/
def translate_drive_name (nm : String) (config : Config) : String :=
  match config.ui.rename.lookup nm with
  | some display => display
  | none => nm

/-- Rust `Path::file_name` on the mount paths built by `mount_paths`: the
component after the last separator. -/
def file_name (path : String) : String :=
  String.mk (path.data.foldl (fun acc c => if c = '/' then [] else acc ++ [c]) [])

/-- Byte-wise lexicographic order on names, as Rust's `str` `cmp` used by
`sort_by` in `mut_children`/`children` (UTF-8 byte order coincides with
code-point order). -/
def chars_le : List Char → List Char → Bool
  | [], _ => true
  | _ :: _, [] => false
  | a :: as, b :: bs => if a = b then chars_le as bs else decide (a < b)

/-- Lexicographic `≤` on strings via `chars_le`. -/
def str_le (a b : String) : Bool := chars_le a.data b.data

/-- Stable insertion of an element into a sorted list. -/
def ordered_insert (le : α → α → Bool) (x : α) : List α → List α
  | [] => [x]
  | y :: ys => if le x y then x :: y :: ys else y :: ordered_insert le x ys

/-- Stable sort, the specification of Rust's stable `sort_by`. -/
def sort_by (le : α → α → Bool) : List α → List α
  | [] => []
  | x :: xs => ordered_insert le x (sort_by le xs)

/-- The orchestrator (`PIso`), restricted to the state `piso.rs` reads and
writes: the configuration, the live drive collection, the volume store
handle and the capability flag.  The sibling widgets (`newdrive`, `stats`,
`wifi`, `options`) carry no state relevant to the claims and appear in the
child views as tags. -/
structure PIso where
  config : Config
  drives : List VirtualDrive
  vg : VolumeGroup
  version : PiVersion
deriving DecidableEq, Repr

/-- `PIso::build_drives_from_vg`: one `VirtualDrive::new` per volume of the
volume group, in enumeration order. -/
def PIso.build_drives_from_vg (vg : VolumeGroup) : List VirtualDrive :=
  vg.volumes.map VirtualDrive.new

/-- `PIso::add_drive`: construct a drive for the volume, mount it
internally, and push it onto the live collection, returning the drive just
pushed. -/
def PIso.add_drive (p : PIso) (volume : LogicalVolume) :
    Except String (PIso × VirtualDrive) :=
  match (VirtualDrive.new volume).mount_internal with
  | Except.error e => Except.error e
  | Except.ok vdrive =>
    Except.ok ({ p with drives := p.drives ++ [vdrive] }, vdrive)

/-- `PIso::share_drive`: no actions when the wifi capability is absent
(`has_wifi` stands for `version::read_version()?.has_wifi()`); on an
`Internal` drive, one add- or remove-share action per mount path, named by
the path's file name; on an unmounted or external drive, removal is a no-op
and adding a share is an error. -/
def PIso.share_drive (has_wifi : Bool) (drive : VirtualDrive) (remove : Bool) :
    Except String (List Action) :=
  if !has_wifi then
    Except.ok []
  else
    match drive.state with
    | .Unmounted | .External _ =>
      if remove then Except.ok []
      else Except.error "Cannot share drive when not mounted internal"
    | .Internal info =>
      Except.ok (info.part_mount_paths.map (fun path =>
        let nm := file_name path
        if remove then Action.SmbRemoveShare nm else Action.SmbSharePartition nm))

/-- `PIso::on_event`: the orchestrator matches every raw input event with a
catch-all, consuming nothing and emitting nothing. -/
def PIso.on_event (p : PIso) (_e : Event) :
    PIso × Except String (Bool × List Action) :=
  (p, Except.ok (false, []))

/-- Replace the first drive whose name matches, as the in-place mutation
through `iter_mut().find` in the `DeleteDrive` branch. -/
def replace_first (drives : List VirtualDrive) (nm : String) (d2 : VirtualDrive) :
    List VirtualDrive :=
  match drives with
  | [] => []
  | d :: rest =>
    if d.name == nm then d2 :: rest else d :: replace_first rest nm d2

/-- The shared tail of the `DeleteDrive` branch after the optional un-share
and unmount of a found drive: `retain` every drive of a different name,
then request the store delete; a store failure surfaces after the retain
already happened (partial mutations persist through `?`). -/
def delete_drive_tail (p : PIso) (nm : String) (actions : List Action) :
    PIso × Except String (Bool × List Action) :=
  let p2 : PIso := { p with drives := p.drives.filter (fun d => d.name != nm) }
  match p2.vg.delete_volume nm with
  | Except.error e => (p2, Except.error e)
  | Except.ok vg2 => ({ p2 with vg := vg2 }, Except.ok (true, actions))

/-- `PIso::do_action`, translated branch by branch from `piso.rs`.  The
result pairs the orchestrator state after the call (Rust mutates through
`&mut self`, so partial mutations persist when `?` propagates an error)
with the `Result<(bool, Vec<Action>)>` value.  The display flip of
`FlipDisplay` is an effect on the external display manager, not on `self`. -/
def PIso.do_action (p : PIso) (env : Env) (a : Action) :
    PIso × Except String (Bool × List Action) :=
  match a with
  | Action.FlipDisplay => (p, Except.ok (true, []))
  | Action.CreateDrive volume =>
    match p.add_drive volume with
    | Except.error e => (p, Except.error e)
    | Except.ok (p2, drive) =>
      match PIso.share_drive p2.version.has_wifi drive false with
      | Except.error e => (p2, Except.error e)
      | Except.ok actions => (p2, Except.ok (true, actions))
  | Action.SnapshotDrive nm =>
    match p.vg.snapshot_volume nm with
    | Except.error e => (p, Except.error e)
    | Except.ok (report, vg2) =>
      let p1 : PIso := { p with vg := vg2 }
      match p1.add_drive report with
      | Except.error e => (p1, Except.error e)
      | Except.ok (p2, drive) =>
        match PIso.share_drive p2.version.has_wifi drive false with
        | Except.error e => (p2, Except.error e)
        | Except.ok actions => (p2, Except.ok (true, actions))
  | Action.DeleteDrive nm =>
    match p.drives.find? (fun d => d.name == nm) with
    | some drive =>
      match PIso.share_drive p.version.has_wifi drive true with
      | Except.error e => (p, Except.error e)
      | Except.ok actions =>
        match drive.unmount env with
        | Except.error e => (p, Except.error e)
        | Except.ok drive2 =>
          delete_drive_tail { p with drives := replace_first p.drives nm drive2 } nm actions
    | none => delete_drive_tail p nm []
  | _ => (p, Except.ok (false, []))

/-- The child widgets as seen from the orchestrator: each live drive, then
the new-drive control, the wifi panel when present, the options panel and
the stats panel. -/
inductive WidgetRef where
  | drive : VirtualDrive → WidgetRef
  | newdrive : WidgetRef
  | wifi : WidgetRef
  | options : WidgetRef
  | stats : WidgetRef
deriving DecidableEq, Repr

/-- Append the fixed sibling widgets after the ordered drives, as both
`mut_children` and `children` do. -/
def widget_tail (p : PIso) (ordered : List VirtualDrive) : List WidgetRef :=
  let children := ordered.map WidgetRef.drive
  let children := children ++ [WidgetRef.newdrive]
  let children := if p.version.has_wifi then children ++ [WidgetRef.wifi] else children
  children ++ [WidgetRef.options, WidgetRef.stats]

/-- `PIso::mut_children` (`Widget::mut_children`): drives in creation order,
or — when `config.ui.sort_drives` is `Some true` — stably sorted by raw
volume name; then the sibling widgets. -/
def PIso.mut_children (p : PIso) : List WidgetRef :=
  let ordered_children :=
    match p.config.ui.sort_drives with
    | some true => sort_by (fun d1 d2 => str_le d1.volume.name d2.volume.name) p.drives
    | _ => p.drives
  widget_tail p ordered_children

/-- `PIso::children` (`Widget::children`): drives in creation order, or —
when `config.ui.sort_drives` is `Some true` — stably sorted by the
display-translated volume name; then the sibling widgets. -/
def PIso.children (p : PIso) : List WidgetRef :=
  let ordered_children :=
    match p.config.ui.sort_drives with
    | some true =>
      sort_by (fun d1 d2 =>
        str_le (translate_drive_name d1.volume.name p.config)
          (translate_drive_name d2.volume.name p.config)) p.drives
    | _ => p.drives
  widget_tail p ordered_children

/-! ## Helper lemmas -/

theorem mount_internal_new (volume : LogicalVolume) :
    (VirtualDrive.new volume).mount_internal = Except.ok (VirtualDrive.new volume) := rfl

theorem add_drive_eq (p : PIso) (volume : LogicalVolume) :
    p.add_drive volume
      = Except.ok ({ p with drives := p.drives ++ [VirtualDrive.new volume] },
          VirtualDrive.new volume) := rfl

theorem share_drive_internal_remove (w : Bool) (d : VirtualDrive) (info : InternalInfo)
    (h : d.state = MountState.Internal info) :
    PIso.share_drive w d true
      = Except.ok (if w then
          info.part_mount_paths.map (fun path => Action.SmbRemoveShare (file_name path))
        else []) := by
  cases w <;> simp [PIso.share_drive, h]

theorem share_drive_internal_add (w : Bool) (d : VirtualDrive) (info : InternalInfo)
    (h : d.state = MountState.Internal info) :
    PIso.share_drive w d false
      = Except.ok (if w then
          info.part_mount_paths.map (fun path => Action.SmbSharePartition (file_name path))
        else []) := by
  cases w <;> simp [PIso.share_drive, h]

theorem share_drive_remove_not_internal (w : Bool) (d : VirtualDrive)
    (h : d.state.is_internal = false) :
    PIso.share_drive w d true = Except.ok [] := by
  cases hs : d.state <;> cases w <;>
    simp_all [PIso.share_drive, MountState.is_internal]

theorem unmount_internal_ok (d : VirtualDrive) (info : InternalInfo) (env : Env)
    (h : d.state = MountState.Internal info) (henv : env.unmount_fails = false) :
    d.unmount env = Except.ok { d with state := MountState.Unmounted } := by
  simp [VirtualDrive.unmount, h, henv]

theorem unmount_external_ok (d : VirtualDrive) (info : ExternalInfo) (env : Env)
    (h : d.state = MountState.External info) (henv : env.unmount_fails = false) :
    d.unmount env = Except.ok { d with state := MountState.Unmounted } := by
  simp [VirtualDrive.unmount, h, henv]

theorem unmount_external_fails (d : VirtualDrive) (info : ExternalInfo) (env : Env)
    (h : d.state = MountState.External info) (henv : env.unmount_fails = true) :
    d.unmount env = Except.error "unmount failed" := by
  simp [VirtualDrive.unmount, h, henv]

theorem filter_replace_first (l : List VirtualDrive) (nm : String) (d2 : VirtualDrive)
    (h : (d2.name == nm) = true) :
    (replace_first l nm d2).filter (fun d => d.name != nm)
      = l.filter (fun d => d.name != nm) := by
  simp only [bne]
  induction l with
  | nil => rfl
  | cons d rest ih =>
    by_cases hd : (d.name == nm) = true
    · simp [replace_first, hd, List.filter_cons, h]
    · simp [replace_first, hd, List.filter_cons, ih]

theorem delete_drive_tail_spec (p : PIso) (nm : String) (actions : List Action) :
    (delete_drive_tail p nm actions).1.drives = p.drives.filter (fun d => d.name != nm)
    ∧ (delete_drive_tail p nm actions).1.vg
        = (match p.vg.delete_volume nm with
           | Except.ok vg2 => vg2
           | Except.error _ => p.vg)
    ∧ (delete_drive_tail p nm actions).2
        = (p.vg.delete_volume nm).map (fun _ => (true, actions)) := by
  unfold delete_drive_tail
  cases h : p.vg.delete_volume nm <;> simp [h, Except.map]

theorem do_action_delete (p : PIso) (env : Env) (nm : String) :
    p.do_action env (Action.DeleteDrive nm)
      = match p.drives.find? (fun d => d.name == nm) with
        | some drive =>
          match PIso.share_drive p.version.has_wifi drive true with
          | Except.error e => (p, Except.error e)
          | Except.ok actions =>
            match drive.unmount env with
            | Except.error e => (p, Except.error e)
            | Except.ok drive2 =>
              delete_drive_tail { p with drives := replace_first p.drives nm drive2 } nm actions
        | none => delete_drive_tail p nm [] := rfl

/-! ## Claim theorems -/

/-- Claim C1: handling `DeleteDrive(nm)` for an existing `Internal` drive
computes the un-share actions for every mount path (returned as follow-up
actions when the store delete succeeds), forces the drive to `Unmounted`,
removes it from the live collection, and only then requests the store
delete: whatever the store delete returns, the resulting collection no
longer contains the drive, while on a store-delete failure the volume
group is left unchanged (the volume still exists). -/
theorem delete_drive_removes_before_store_confirm
    (env : Env) (p : PIso) (nm : String) (d : VirtualDrive) (info : InternalInfo)
    (hfind : p.drives.find? (fun e => e.name == nm) = some d)
    (hstate : d.state = MountState.Internal info)
    (henv : env.unmount_fails = false) :
    (p.do_action env (Action.DeleteDrive nm)).1.drives
        = p.drives.filter (fun e => e.name != nm)
    ∧ (p.do_action env (Action.DeleteDrive nm)).1.vg
        = (match p.vg.delete_volume nm with
           | Except.ok vg2 => vg2
           | Except.error _ => p.vg)
    ∧ (p.do_action env (Action.DeleteDrive nm)).2
        = (p.vg.delete_volume nm).map (fun _ => (true,
            if p.version.has_wifi then
              info.part_mount_paths.map (fun path => Action.SmbRemoveShare (file_name path))
            else [])) := by
  have hname : (d.name == nm) = true := by simpa using List.find?_some hfind
  have hname2 : (({ d with state := MountState.Unmounted } : VirtualDrive).name == nm) = true := hname
  have hact := share_drive_internal_remove p.version.has_wifi d info hstate
  have hun := unmount_internal_ok d info env hstate henv
  have htail := delete_drive_tail_spec
    { p with drives := replace_first p.drives nm { d with state := MountState.Unmounted } } nm
    (if p.version.has_wifi then
      info.part_mount_paths.map (fun path => Action.SmbRemoveShare (file_name path))
    else [])
  rw [do_action_delete]
  simp only [hfind, hact, hun]
  refine ⟨?_, htail.2.1, htail.2.2⟩
  rw [htail.1, filter_replace_first p.drives nm _ hname2]

/-- Claim C2: at startup, `build_drives_from_vg` produces one virtual drive
per enumerated volume, in order, and every startup drive begins in the
`Internal` mount state. -/
theorem startup_drives_internal (vg : VolumeGroup) :
    (PIso.build_drives_from_vg vg).map VirtualDrive.volume = vg.volumes
    ∧ (PIso.build_drives_from_vg vg).all (fun d => d.state.is_internal) = true := by
  constructor
  · have hcomp : (VirtualDrive.volume ∘ VirtualDrive.new) = id := rfl
    simp [PIso.build_drives_from_vg, List.map_map, hcomp]
  · simp only [PIso.build_drives_from_vg, List.all_eq_true]
    intro d hd
    obtain ⟨v, _, rfl⟩ := List.mem_map.mp hd
    rfl

/-- Claim C4: handling `CreateDrive(volume)` appends a new virtual drive for
that volume to the live collection, the new drive is in the `Internal`
state, and the handler reports handled with one share action per mount path
when the wifi capability gate is true (none otherwise). -/
theorem create_drive_spec (env : Env) (p : PIso) (volume : LogicalVolume) :
    (p.do_action env (Action.CreateDrive volume)).1.drives
        = p.drives ++ [VirtualDrive.new volume]
    ∧ (VirtualDrive.new volume).state.is_internal = true
    ∧ (p.do_action env (Action.CreateDrive volume)).2
        = Except.ok (true,
            if p.version.has_wifi then
              (mount_paths volume).map (fun path => Action.SmbSharePartition (file_name path))
            else []) := by
  have hact := share_drive_internal_add p.version.has_wifi (VirtualDrive.new volume)
    { part_mount_paths := mount_paths volume } rfl
  refine ⟨?_, rfl, ?_⟩ <;>
    simp only [PIso.do_action, add_drive_eq, hact]

/-- Claim C5: with the wifi capability gate false, `share_drive` succeeds
with the empty action list, for every drive state and for both the
add-share and remove-share direction. -/
theorem share_drive_no_wifi_noop (drive : VirtualDrive) (remove : Bool) :
    PIso.share_drive false drive remove = Except.ok [] := rfl

/-- Claim C9: the orchestrator's own `on_event` never consumes a raw input
event: it reports not handled, emits no actions, and leaves the state
unchanged. -/
theorem on_event_never_handles (p : PIso) (e : Event) :
    p.on_event e = (p, Except.ok (false, [])) := rfl

/-- Claim C6: with the wifi capability gate true, requesting add-share
actions for a drive that is not mounted internally (state `Unmounted` or
`External`) fails with an error, so no actions are produced. -/
theorem share_drive_not_internal_errors (drive : VirtualDrive)
    (h : drive.state.is_internal = false) :
    PIso.share_drive true drive false
      = Except.error "Cannot share drive when not mounted internal" := by
  cases hs : drive.state
  · simp [PIso.share_drive, hs]
  · rw [hs] at h
    simp [MountState.is_internal] at h
  · simp [PIso.share_drive, hs]

/-- Claim C7: handling `DeleteDrive(nm)` for an existing `External` drive
produces no remove-share actions (the remove-share computation on a
non-`Internal` drive yields the empty list); when the forced teardown call
fails the whole handler fails with the orchestrator state untouched, so
the store delete is requested only after teardown returns successfully, in
which case the handler reports handled with no follow-up actions. -/
theorem delete_drive_external_spec
    (env : Env) (p : PIso) (nm : String) (d : VirtualDrive) (info : ExternalInfo)
    (hfind : p.drives.find? (fun e => e.name == nm) = some d)
    (hstate : d.state = MountState.External info) :
    PIso.share_drive p.version.has_wifi d true = Except.ok []
    ∧ (env.unmount_fails = true →
        p.do_action env (Action.DeleteDrive nm) = (p, Except.error "unmount failed"))
    ∧ (env.unmount_fails = false →
        (p.do_action env (Action.DeleteDrive nm)).2
            = (p.vg.delete_volume nm).map (fun _ => (true, ([] : List Action)))
        ∧ (p.do_action env (Action.DeleteDrive nm)).1.vg
            = (match p.vg.delete_volume nm with
               | Except.ok vg2 => vg2
               | Except.error _ => p.vg)
        ∧ (p.do_action env (Action.DeleteDrive nm)).1.drives
            = p.drives.filter (fun e => e.name != nm)) := by
  have hname : (d.name == nm) = true := by simpa using List.find?_some hfind
  have hname2 : (({ d with state := MountState.Unmounted } : VirtualDrive).name == nm) = true := hname
  have hact : PIso.share_drive p.version.has_wifi d true = Except.ok [] :=
    share_drive_remove_not_internal p.version.has_wifi d (by rw [hstate]; rfl)
  refine ⟨hact, ?_, ?_⟩
  · intro henv
    rw [do_action_delete]
    simp only [hfind, hact, unmount_external_fails d info env hstate henv]
  · intro henv
    have hun := unmount_external_ok d info env hstate henv
    have htail := delete_drive_tail_spec
      { p with drives := replace_first p.drives nm { d with state := MountState.Unmounted } } nm []
    rw [do_action_delete]
    simp only [hfind, hact, hun]
    refine ⟨htail.2.2, htail.2.1, ?_⟩
    rw [htail.1, filter_replace_first p.drives nm _ hname2]

/-- Claim C8: handling `SnapshotDrive(nm)` is the composition of the store
snapshot with the `CreateDrive` handling of the produced volume: on
snapshot failure nothing changes, and on success the very same
drive-construction, mount, insertion and share-action steps run on the
snapshot volume against the updated volume group. -/
theorem snapshot_drive_refines_create_drive (env : Env) (p : PIso) (nm : String) :
    p.do_action env (Action.SnapshotDrive nm)
      = (match p.vg.snapshot_volume nm with
         | Except.error e => (p, Except.error e)
         | Except.ok (vol, vg2) =>
           PIso.do_action { p with vg := vg2 } env (Action.CreateDrive vol)) := by
  cases h : p.vg.snapshot_volume nm with
  | error e => simp only [PIso.do_action, h]
  | ok pair =>
    obtain ⟨vol, vg2⟩ := pair
    simp only [PIso.do_action, h]

/-- Claim C10: handling `DeleteDrive(nm)` when no live drive carries that
name leaves the drive collection unchanged, still issues the delete request
to the volume store, and reports handled with no follow-up actions exactly
when the store delete succeeds. -/
theorem delete_drive_missing_name (env : Env) (p : PIso) (nm : String)
    (hfind : p.drives.find? (fun e => e.name == nm) = none) :
    (p.do_action env (Action.DeleteDrive nm)).1.drives = p.drives
    ∧ (p.do_action env (Action.DeleteDrive nm)).1.vg
        = (match p.vg.delete_volume nm with
           | Except.ok vg2 => vg2
           | Except.error _ => p.vg)
    ∧ (p.do_action env (Action.DeleteDrive nm)).2
        = (p.vg.delete_volume nm).map (fun _ => (true, ([] : List Action))) := by
  have hall : p.drives.filter (fun e => e.name != nm) = p.drives := by
    refine List.filter_eq_self.mpr ?_
    intro a ha
    have := List.find?_eq_none.mp hfind a ha
    simpa [bne] using this
  have htail := delete_drive_tail_spec p nm []
  rw [do_action_delete]
  simp only [hfind]
  exact ⟨by rw [htail.1, hall], htail.2.1, htail.2.2⟩

/-- Claim C3, amended: `mut_children` and `children` present the drives in
the same (creation) order whenever the sort flag is unset or false; when
the flag is true, `mut_children` sorts by raw volume name while `children`
sorts by the display-translated name, and the two agree when no
transliteration is configured. -/
theorem children_order_agree (p : PIso) :
    (p.config.ui.sort_drives ≠ some true → p.mut_children = p.children)
    ∧ (p.config.ui.rename = [] → p.mut_children = p.children) := by
  constructor
  · intro h
    unfold PIso.mut_children PIso.children
    rcases hs : p.config.ui.sort_drives with _ | b
    · simp only [hs]
    · cases b
      · simp only [hs]
      · exact absurd hs h
  · intro h
    have ht : ∀ nm, translate_drive_name nm p.config = nm := by
      intro nm
      unfold translate_drive_name
      rw [h]
      rfl
    unfold PIso.mut_children PIso.children
    simp only [ht]

/-! ## Concrete inputs for counterexamples and witnesses -/

def env_ok : Env := ⟨false⟩

def env_bad : Env := ⟨true⟩

def vol_backup : LogicalVolume := ⟨"backup", ["part1"]⟩

def vol_docs : LogicalVolume := ⟨"docs", ["part1"]⟩

def vol_alpha : LogicalVolume := ⟨"alpha", ["part1"]⟩

def vol_beta : LogicalVolume := ⟨"beta", ["part1"]⟩

def drive_backup : VirtualDrive := VirtualDrive.new vol_backup

def drive_backup_ext : VirtualDrive := ⟨vol_backup, MountState.External ⟨0⟩⟩

def drive_backup_unm : VirtualDrive := ⟨vol_backup, MountState.Unmounted⟩

def cfg_plain : Config := ⟨⟨none, []⟩⟩

/-- A configuration with drive sorting enabled and a display
transliteration that reverses the lexicographic order of the two volume
names below (`beta` displays as `aaa`, which sorts before `alpha`). -/
def cfg_sorted_rename : Config := ⟨⟨some true, [("beta", "aaa")]⟩⟩

def piso_int : PIso := ⟨cfg_plain, [drive_backup], ⟨[vol_backup], []⟩, ⟨true⟩⟩

def piso_ext : PIso := ⟨cfg_plain, [drive_backup_ext], ⟨[vol_backup], []⟩, ⟨true⟩⟩

def piso_nodrv : PIso := ⟨cfg_plain, [drive_backup], ⟨[vol_backup, vol_docs], []⟩, ⟨true⟩⟩

def piso_renamed : PIso :=
  ⟨cfg_sorted_rename, [VirtualDrive.new vol_alpha, VirtualDrive.new vol_beta],
    ⟨[vol_alpha, vol_beta], []⟩, ⟨false⟩⟩

def piso_plainsort : PIso :=
  ⟨⟨⟨some true, []⟩⟩, [VirtualDrive.new vol_beta, VirtualDrive.new vol_alpha],
    ⟨[vol_alpha, vol_beta], []⟩, ⟨true⟩⟩

/-- Claim C3 counterexample: with the sort flag true and a transliteration
that reorders the display names, the event-propagation view `mut_children`
(sorted by raw volume name) and the rendering view `children` (sorted by
translated name) present the drives in different orders. -/
theorem children_order_mismatch :
    piso_renamed.mut_children ≠ piso_renamed.children := by decide

/-- Witness for the amended claim C3 at a sorted configuration with no
transliteration. -/
theorem children_order_agree_w :
    piso_plainsort.mut_children = piso_plainsort.children :=
  (children_order_agree piso_plainsort).2 rfl

/-- Witness for claim C1: deleting the internal drive `backup` from a
concrete orchestrator. -/
theorem delete_drive_removes_before_store_confirm_w :
    (piso_int.do_action env_ok (Action.DeleteDrive "backup")).1.drives
        = piso_int.drives.filter (fun e => e.name != "backup")
    ∧ (piso_int.do_action env_ok (Action.DeleteDrive "backup")).1.vg
        = (match piso_int.vg.delete_volume "backup" with
           | Except.ok vg2 => vg2
           | Except.error _ => piso_int.vg)
    ∧ (piso_int.do_action env_ok (Action.DeleteDrive "backup")).2
        = (piso_int.vg.delete_volume "backup").map (fun _ => (true,
            if piso_int.version.has_wifi then
              (⟨["/mnt/backup/part1"]⟩ : InternalInfo).part_mount_paths.map
                (fun path => Action.SmbRemoveShare (file_name path))
            else [])) :=
  delete_drive_removes_before_store_confirm env_ok piso_int "backup" drive_backup
    ⟨["/mnt/backup/part1"]⟩ (by decide) (by decide) rfl

/-- Witness for claim C6: sharing an unmounted drive with the wifi gate on
fails. -/
theorem share_drive_not_internal_errors_w :
    PIso.share_drive true drive_backup_unm false
      = Except.error "Cannot share drive when not mounted internal" :=
  share_drive_not_internal_errors drive_backup_unm (by decide)

/-- Witness for claim C7: deleting the external drive `backup` when the
teardown call fails leaves the orchestrator untouched and requests no
store delete. -/
theorem delete_drive_external_spec_w :
    piso_ext.do_action env_bad (Action.DeleteDrive "backup")
      = (piso_ext, Except.error "unmount failed") :=
  (delete_drive_external_spec env_bad piso_ext "backup" drive_backup_ext ⟨0⟩
    (by decide) (by decide)).2.1 rfl

/-- Witness for claim C10: deleting the name `docs`, which has a volume but
no live drive. -/
theorem delete_drive_missing_name_w :
    (piso_nodrv.do_action env_ok (Action.DeleteDrive "docs")).1.drives = piso_nodrv.drives
    ∧ (piso_nodrv.do_action env_ok (Action.DeleteDrive "docs")).1.vg
        = (match piso_nodrv.vg.delete_volume "docs" with
           | Except.ok vg2 => vg2
           | Except.error _ => piso_nodrv.vg)
    ∧ (piso_nodrv.do_action env_ok (Action.DeleteDrive "docs")).2
        = (piso_nodrv.vg.delete_volume "docs").map (fun _ => (true, ([] : List Action))) :=
  delete_drive_missing_name env_ok piso_nodrv "docs" (by decide)

end Piso
